import Mathlib

/-!
Shallow embedding of `src/API/app.py` (glance-arr-api): item normalizers,
agenda aggregation (filter, sort, group), per-provider stats calculators,
and the ordered-field formatter.

Python values flowing through the core are modelled by `Json` (JSON scalars
and objects; Python `None` is `Json.null`).  Fallible Python operations
(raising `TypeError`/`AttributeError`) are modelled with `Except Unit`.
-/

namespace ArrApi

/-- JSON/Python values as handled by the core functions.  Arrays never flow
through the normalizers/calculators as field values in this code, so object
fields are scalars or nested objects. -/
inductive Json where
  | null : Json
  | bool (b : Bool) : Json
  | num (n : Int) : Json
  | str (s : String) : Json
  | obj (fields : List (String × Json)) : Json

/-- A parsed JSON object / Python dict, as a key-value list (keys unique). -/
abbrev PyDict := List (String × Json)

/-- Python `d[k]` / `d.get(k)` lookup: the first binding of `k`, if any. -/
def pyLookup (fs : PyDict) (k : String) : Option Json :=
  match fs with
  | [] => none
  | (k', v) :: rest => if k' = k then some v else pyLookup rest k

/-- Python `d.get(k, dflt)`: the stored value when the key is present
(even if that value is `None`), otherwise the default. -/
def pyGetD (fs : PyDict) (k : String) (dflt : Json) : Json :=
  match pyLookup fs k with
  | some v => v
  | none => dflt

/-- Python `d.get(k)`: missing keys give `None`. -/
def pyGet (fs : PyDict) (k : String) : Json :=
  pyGetD fs k .null

/-- Python truthiness of a value (`if v:`). -/
def pyTruthy : Json → Bool
  | .null => false
  | .bool b => b
  | .num n => decide (n ≠ 0)
  | .str s => decide (s ≠ "")
  | .obj fs => !fs.isEmpty

/-- Python `v == s` for a string literal `s`: true only for an equal string. -/
def pyEqStr (v : Json) (s : String) : Bool :=
  match v with
  | .str t => decide (t = s)
  | _ => false

/-- Python `f"{n:02d}"` for an integer `n`. -/
def pad02 (n : Int) : String :=
  if 0 ≤ n ∧ n < 10 then "0" ++ toString n else toString n

/-- Python `f"{v:02d}"`: succeeds on ints (bools are ints), raises
`TypeError`/`ValueError` on `None`, strings, and other values. -/
def pyFormat02d : Json → Except Unit String
  | .num n => .ok (pad02 n)
  | .bool b => .ok (pad02 (if b then 1 else 0))
  | _ => .error ()

/-- Normalized agenda item (the dict built by the normalizers). -/
structure NormItem where
  release_datetime : Json
  title : Json
  type : String
  has_file : Json
  details : String

/-- `normalize_sonarr_item` (app.py lines 17-35).  `series_info.get` raises
`AttributeError` when `series` is present but not a dict, and the
`f"S{...:02d}E{...:02d}"` format raises `TypeError` when `seasonNumber` or
`episodeNumber` is missing (`None`) or not an int. -/
def normalizeSonarrItem (item : PyDict) : Except Unit NormItem := do
  let seriesInfo := pyGetD item "series" (.obj [])
  let title ← match seriesInfo with
    | .obj fs => .ok (pyGetD fs "title" (.str "Unknown Show"))
    | _ => .error ()
  let s ← pyFormat02d (pyGet item "seasonNumber")
  let e ← pyFormat02d (pyGet item "episodeNumber")
  .ok { release_datetime := pyGet item "airDateUtc"
        title := title
        type := "show"
        has_file := pyGetD item "hasFile" (.bool false)
        details := "S" ++ s ++ "E" ++ e }

/-- `normalize_radarr_item` (app.py lines 38-59): total; the digital-release
branch is taken when `item.get("digitalRelease")` is truthy. -/
def normalizeRadarrItem (item : PyDict) : NormItem :=
  let pick :=
    if pyTruthy (pyGet item "digitalRelease") then
      (pyGet item "digitalRelease", "Digital Release")
    else
      (pyGet item "inCinemas", "In Cinemas")
  { release_datetime := pick.1
    title := pyGet item "title"
    type := "movie"
    has_file := pyGetD item "hasFile" (.bool false)
    details := pick.2 }

/-! ### Agenda aggregation (`get_agenda`, app.py lines 270-335) -/

/-- Python `s < t` on strings: lexicographic comparison by code point. -/
def pyStrLtL : List Char → List Char → Bool
  | [], [] => false
  | [], _ :: _ => true
  | _ :: _, [] => false
  | a :: as, b :: bs =>
    if a < b then true else if b < a then false else pyStrLtL as bs

def pyStrLt (s t : String) : Bool :=
  pyStrLtL s.data t.data

/-- Python `s >= t` on strings. -/
def pyStrGe (s t : String) : Bool :=
  !pyStrLt s t

/-- Python `a < b` on sort keys.  Ints and bools are mutually comparable
(bools are ints), strings compare lexicographically by code point; any other
pair — in particular `None` against a string — raises `TypeError`. -/
def pyLt : Json → Json → Except Unit Bool
  | .num a, .num b => .ok (decide (a < b))
  | .num a, .bool b => .ok (decide (a < (if b then 1 else 0)))
  | .bool a, .num b => .ok (decide ((if a then 1 else 0 : Int) < b))
  | .bool a, .bool b => .ok (decide ((if a then 1 else 0 : Int) < (if b then 1 else 0)))
  | .str a, .str b => .ok (pyStrLt a b)
  | _, _ => .error ()

/-- Insert into an already-sorted prefix, keeping `x` after equal keys
(stability).  Comparison failures propagate as the `TypeError` that
`list.sort` raises. -/
def insertByKey (x : NormItem) : List NormItem → Except Unit (List NormItem)
  | [] => .ok [x]
  | y :: ys =>
    match pyLt x.release_datetime y.release_datetime with
    | .error _ => .error ()
    | .ok true => .ok (x :: y :: ys)
    | .ok false =>
      match insertByKey x ys with
      | .error _ => .error ()
      | .ok zs => .ok (y :: zs)

/-- `all_items.sort(key=lambda x: x.get("release_datetime"))` (app.py
line 320), modelled as a stable comparison sort that raises exactly when it
compares two incomparable keys. -/
def sortByKey (l : List NormItem) : List NormItem → Except Unit (List NormItem)
  | [] => .ok l
  | x :: xs =>
    match insertByKey x l with
    | .error _ => .error ()
    | .ok l2 => sortByKey l2 xs

def sortItems (items : List NormItem) : Except Unit (List NormItem) :=
  sortByKey [] items

/-- Python `v[:10]`: defined on strings, raises `TypeError` otherwise. -/
def sliceTen : Json → Except Unit String
  | .str s => .ok (s.take 10)
  | _ => .error ()

/-- The Radarr branch of `get_agenda` (app.py lines 309-315): normalize each
record, then keep it only when its `release_datetime` is truthy and its date
prefix is not before `start_date`. -/
def radarrAgendaItems (startDate : String) : List PyDict → Except Unit (List NormItem)
  | [] => .ok []
  | r :: rs => do
    let n := normalizeRadarrItem r
    let rest ← radarrAgendaItems startDate rs
    if pyTruthy n.release_datetime then
      let d ← sliceTen n.release_datetime
      if pyStrGe d startDate then .ok (n :: rest) else .ok rest
    else
      .ok rest

/-- One step of the grouping loop: append the item to the bucket of its date
key, creating the bucket at the end on first sight (dict insertion order). -/
def insertGroup (d : String) (it : NormItem) :
    List (String × List NormItem) → List (String × List NormItem)
  | [] => [(d, [it])]
  | (k, xs) :: rest =>
    if k = d then (k, xs ++ [it]) :: rest else (k, xs) :: insertGroup d it rest

/-- The grouping loop of `get_agenda` (app.py lines 323-333): items whose
`release_datetime` is falsy (absent/empty) are skipped; others are bucketed
by the first 10 characters of `release_datetime` (raising if that value is
truthy but not a string). -/
def groupAgenda (acc : List (String × List NormItem)) :
    List NormItem → Except Unit (List (String × List NormItem))
  | [] => .ok acc
  | it :: its =>
    if pyTruthy it.release_datetime then
      match sliceTen it.release_datetime with
      | .error _ => .error ()
      | .ok d => groupAgenda (insertGroup d it acc) its
    else
      groupAgenda acc its

/-- All items of the grouped agenda, in entry order (the union of the items
across all returned Agenda Entries, with multiplicity). -/
def entryItems (gs : List (String × List NormItem)) : List NormItem :=
  (gs.map Prod.snd).flatten

/-- The core of `get_agenda` (app.py lines 270-335) after the two fetches
succeed: normalize every Sonarr record, normalize-and-filter the Radarr
records, concatenate, sort by `release_datetime`, and group by date. -/
def getAgendaCore (startDate : String) (sonarr radarr : List PyDict) :
    Except Unit (List (String × List NormItem)) :=
  match sonarr.mapM normalizeSonarrItem with
  | .error _ => .error ()
  | .ok sItems =>
    match radarrAgendaItems startDate radarr with
    | .error _ => .error ()
    | .ok rItems =>
      match sortItems (sItems ++ rItems) with
      | .error _ => .error ()
      | .ok sorted => groupAgenda [] sorted

/-! ### Stats calculators (`calculate_sonarr_stats`, `calculate_radarr_stats`,
app.py lines 171-267) -/

/-- Python `acc + v` for an accumulated int and a JSON field value: ints and
bools add, anything else raises `TypeError`. -/
def pyAddInt (acc : Int) : Json → Except Unit Int
  | .num n => .ok (acc + n)
  | .bool b => .ok (acc + (if b then 1 else 0))
  | _ => .error ()

/-- Python `series.get("statistics", {})` followed by `.get` on the result:
the result must be a dict or `AttributeError` is raised. -/
def asObj : Json → Except Unit PyDict
  | .obj fs => .ok fs
  | _ => .error ()

/-- `"0" * d` repetition. -/
def zeros (d : Nat) : String :=
  String.mk (List.replicate d '0')

/-- Python `f"{0:.{d}f}"`: `"0"` at precision 0, otherwise `"0."` followed by
`d` zeros. -/
def zeroFixed (d : Nat) : String :=
  if d = 0 then "0" else "0." ++ zeros d

/-- Fixed-point rendering of `num / den` to `d` decimals with round-half-even,
for `num > 0`.  This idealizes Python's IEEE-double division and `f"...f"`
formatting as exact rational rounding (the double-precision edge cases are
outside every stated property, which only constrain the `total ≤ 0` branch). -/
def posFixed (num den : Int) (d : Nat) : String :=
  let scaled := num * (10 : Int) ^ d
  let q := scaled / den
  let r := scaled % den
  let q := if 2 * r > den ∨ (2 * r = den ∧ q % 2 = 1) then q + 1 else q
  let ip := q / (10 : Int) ^ d
  let fp := (q % (10 : Int) ^ d).toNat
  if d = 0 then toString ip
  else
    let fs := toString fp
    toString ip ++ "." ++ zeros (d - fs.length) ++ fs

/-- Size formatting shared by both calculators (app.py lines 209-212 and
256-259): `total / 1000**4` when positive, else exactly zero, rendered with
`d` decimals and suffixed `" TB"`. -/
def formatSizeTB (total : Int) (d : Nat) : String :=
  (if total > 0 then posFixed total ((1000 : Int) ^ 4) d else zeroFixed d) ++ " TB"

/-- The `ended` condition of the Sonarr reduction (app.py line 192). -/
def sonarrEnded (r : PyDict) : Bool :=
  pyTruthy (pyGetD r "ended" (.bool false)) || pyEqStr (pyGet r "status") "ended"

/-- The `continuing` condition (app.py line 194): only reached when the
`ended` condition failed. -/
def sonarrContinuing (r : PyDict) : Bool :=
  !sonarrEnded r && pyEqStr (pyGet r "status") "continuing"

/-- Python `series.get("monitored", False)` truthiness (app.py line 198). -/
def isMonitored (r : PyDict) : Bool :=
  pyTruthy (pyGetD r "monitored" (.bool false))

/-- Accumulator of the Sonarr reduction loop. -/
structure SonarrAcc where
  ended : Int
  continuing : Int
  monitored : Int
  unmonitored : Int
  episodes : Int
  files : Int
  size : Int
deriving DecidableEq

def sonarrAcc0 : SonarrAcc := ⟨0, 0, 0, 0, 0, 0, 0⟩

/-- The counting part of one Sonarr loop iteration (app.py lines 190-201):
the `if`/`elif` on status and the monitored partition. -/
def sonarrCount (acc : SonarrAcc) (r : PyDict) : SonarrAcc :=
  let acc1 :=
    if sonarrEnded r then { acc with ended := acc.ended + 1 }
    else if sonarrContinuing r then { acc with continuing := acc.continuing + 1 }
    else acc
  if isMonitored r then { acc1 with monitored := acc1.monitored + 1 }
  else { acc1 with unmonitored := acc1.unmonitored + 1 }

/-- One iteration of the Sonarr loop (app.py lines 190-207): count status and
monitoring, then accumulate the three fields of `series.get("statistics", {})`
(each addition raising on a non-int value, as in Python). -/
def sonarrStep (acc : SonarrAcc) (r : PyDict) : Except Unit SonarrAcc :=
  match asObj (pyGetD r "statistics" (.obj [])) with
  | .error _ => .error ()
  | .ok stats =>
    match pyAddInt (sonarrCount acc r).episodes (pyGetD stats "episodeCount" (.num 0)),
        pyAddInt (sonarrCount acc r).files (pyGetD stats "episodeFileCount" (.num 0)),
        pyAddInt (sonarrCount acc r).size (pyGetD stats "sizeOnDisk" (.num 0)) with
    | .ok episodes, .ok files, .ok size =>
      .ok { sonarrCount acc r with episodes := episodes, files := files, size := size }
    | _, _, _ => .error ()

/-- The Sonarr per-provider section of the stats payload. -/
structure SonarrStats where
  series : Int
  ended : Int
  continuing : Int
  monitored : Int
  unmonitored : Int
  episodes : Int
  files : Int
  size : String
deriving DecidableEq

/-- `calculate_sonarr_stats` (app.py lines 171-223), with the
`decimals` request argument passed explicitly. -/
def calculateSonarrStats (d : Nat) (rs : List PyDict) : Except Unit SonarrStats :=
  match List.foldlM sonarrStep sonarrAcc0 rs with
  | .error _ => .error ()
  | .ok acc =>
    .ok { series := rs.length
          ended := acc.ended
          continuing := acc.continuing
          monitored := acc.monitored
          unmonitored := acc.unmonitored
          episodes := acc.episodes
          files := acc.files
          size := formatSizeTB acc.size d }

/-- The summed `sizeOnDisk` total of the Sonarr reduction, when it succeeds. -/
def sonarrTotalBytes (rs : List PyDict) : Except Unit Int :=
  (rs.foldlM sonarrStep sonarrAcc0).map SonarrAcc.size

/-- Accumulator of the Radarr reduction loop. -/
structure RadarrAcc where
  files : Int
  monitored : Int
  unmonitored : Int
  size : Int
deriving DecidableEq

def radarrAcc0 : RadarrAcc := ⟨0, 0, 0, 0⟩

/-- The counting part of one Radarr loop iteration (app.py lines 242-251). -/
def radarrCount (acc : RadarrAcc) (r : PyDict) : RadarrAcc :=
  let acc1 :=
    if pyTruthy (pyGetD r "hasFile" (.bool false)) then { acc with files := acc.files + 1 }
    else acc
  if isMonitored r then { acc1 with monitored := acc1.monitored + 1 }
  else { acc1 with unmonitored := acc1.unmonitored + 1 }

/-- One iteration of the Radarr loop (app.py lines 242-254). -/
def radarrStep (acc : RadarrAcc) (r : PyDict) : Except Unit RadarrAcc :=
  match pyAddInt (radarrCount acc r).size (pyGetD r "sizeOnDisk" (.num 0)) with
  | .ok size => .ok { radarrCount acc r with size := size }
  | .error _ => .error ()

/-- The Radarr per-provider section of the stats payload. -/
structure RadarrStats where
  movies : Int
  files : Int
  monitored : Int
  unmonitored : Int
  size : String
deriving DecidableEq

/-- `calculate_radarr_stats` (app.py lines 226-267). -/
def calculateRadarrStats (d : Nat) (ms : List PyDict) : Except Unit RadarrStats :=
  match List.foldlM radarrStep radarrAcc0 ms with
  | .error _ => .error ()
  | .ok acc =>
    .ok { movies := ms.length
          files := acc.files
          monitored := acc.monitored
          unmonitored := acc.unmonitored
          size := formatSizeTB acc.size d }

/-- The summed `sizeOnDisk` total of the Radarr reduction, when it succeeds. -/
def radarrTotalBytes (ms : List PyDict) : Except Unit Int :=
  (ms.foldlM radarrStep radarrAcc0).map RadarrAcc.size

/-! ### `get_stats` (app.py lines 338-401) -/

/-- Combined stats payload (`stats` dict in `get_stats`). -/
structure StatsResult where
  sonarr : SonarrStats
  radarr : RadarrStats
  error : Option String
deriving DecidableEq

/-- The zero-filled Sonarr section substituted on fetch failure
(app.py lines 362-372); its size string is literally
`f"0.\x7b'0' * decimal_places\x7d TB"`. -/
def zeroSonarrStats (d : Nat) : SonarrStats :=
  ⟨0, 0, 0, 0, 0, 0, 0, "0." ++ zeros d ++ " TB"⟩

/-- The zero-filled Radarr section substituted on fetch failure
(app.py lines 388-395). -/
def zeroRadarrStats (d : Nat) : RadarrStats :=
  ⟨0, 0, 0, 0, "0." ++ zeros d ++ " TB"⟩

/-- The core of `get_stats` (app.py lines 338-401) with the two fetch
outcomes passed in: `.error e` is a caught `RequestException` with message
`e`; a successful fetch hands its record list to the calculator (whose own
`TypeError`s are not caught by the endpoint and so propagate). -/
def getStatsCore (d : Nat) (sonarrFetch radarrFetch : Except String (List PyDict)) :
    Except Unit StatsResult := do
  let (sstats, err1) ← match sonarrFetch with
    | .ok data => do
        let st ← calculateSonarrStats d data
        pure (st, (none : Option String))
    | .error e => pure (zeroSonarrStats d, some ("Sonarr error: " ++ e))
  let (rstats, err2) ← match radarrFetch with
    | .ok data => do
        let st ← calculateRadarrStats d data
        pure (st, err1)
    | .error e =>
        match err1 with
        | some msg => pure (zeroRadarrStats d, some (msg ++ (" | Radarr error: " ++ e)))
        | none => pure (zeroRadarrStats d, some ("Radarr error: " ++ e))
  .ok { sonarr := sstats, radarr := rstats, error := err2 }

/-! ### Ordered-field formatter (`format_ordered_stats`, app.py lines 62-168) -/

/-- A field value in the formatter: the stats counters (ints) or a string
(size strings, header labels, comma-grouped numbers). -/
inductive FVal where
  | num (n : Int) : FVal
  | str (s : String) : FVal
deriving DecidableEq

/-- Python `f"{n:,}"`: digits of `n` grouped in threes with commas.
`groupRev` walks the reversed digit list, counting down to the next comma. -/
def groupRev : Nat → List Char → List Char
  | _, [] => []
  | 0, c :: cs => ',' :: c :: groupRev 2 cs
  | k + 1, c :: cs => c :: groupRev k cs

def commaGroup (n : Int) : String :=
  let g := String.mk (groupRev 3 (toString n.natAbs).data.reverse).reverse
  if n < 0 then "-" ++ g else g

/-- `format_value` (app.py lines 78-85): commas are inserted only when the
flag is set and the value is numeric; strings pass through. -/
def formatValue (useCommas : Bool) (n : Int) : FVal :=
  if useCommas then .str (commaGroup n) else .num n

/-- One entry of the formatter's fixed field table: a header pseudo-field
(`{"value": ..., "type": "header"}`) or a value with its dotted path
(`{"value": ..., "field": ...}`). -/
inductive FieldInfo where
  | header (value : String) : FieldInfo
  | field (value : FVal) (path : String) : FieldInfo
deriving DecidableEq

/-- The `field_map` of `format_ordered_stats` (app.py lines 87-142). -/
def fieldMap (st : StatsResult) (useCommas : Bool) : String → Option FieldInfo
  | "sonarr_header" => some (.header "TV")
  | "sonarr_series" => some (.field (formatValue useCommas st.sonarr.series) "sonarr.series")
  | "sonarr_ended" => some (.field (formatValue useCommas st.sonarr.ended) "sonarr.ended")
  | "sonarr_continuing" =>
      some (.field (formatValue useCommas st.sonarr.continuing) "sonarr.continuing")
  | "sonarr_monitored" =>
      some (.field (formatValue useCommas st.sonarr.monitored) "sonarr.monitored")
  | "sonarr_unmonitored" =>
      some (.field (formatValue useCommas st.sonarr.unmonitored) "sonarr.unmonitored")
  | "sonarr_episodes" =>
      some (.field (formatValue useCommas st.sonarr.episodes) "sonarr.episodes")
  | "sonarr_files" => some (.field (formatValue useCommas st.sonarr.files) "sonarr.files")
  | "sonarr_size" => some (.field (.str st.sonarr.size) "sonarr.size")
  | "radarr_header" => some (.header "Movies")
  | "radarr_movies" => some (.field (formatValue useCommas st.radarr.movies) "radarr.movies")
  | "radarr_files" => some (.field (formatValue useCommas st.radarr.files) "radarr.files")
  | "radarr_monitored" =>
      some (.field (formatValue useCommas st.radarr.monitored) "radarr.monitored")
  | "radarr_unmonitored" =>
      some (.field (formatValue useCommas st.radarr.unmonitored) "radarr.unmonitored")
  | "radarr_size" => some (.field (.str st.radarr.size) "radarr.size")
  | _ => none

/-- Python `s.split(sep)` for a one-character separator, over char lists:
splitting the empty string gives `[""]`, and separators delimit (possibly
empty) groups. -/
def splitOnCharL (sep : Char) : List Char → List (List Char)
  | [] => [[]]
  | c :: cs =>
    let r := splitOnCharL sep cs
    if c = sep then [] :: r
    else
      match r with
      | [] => [[c]]
      | g :: gs => (c :: g) :: gs

def pySplitChar (sep : Char) (s : String) : List String :=
  (splitOnCharL sep s.data).map String.mk

/-- Join char-list groups with a separator (inverse of splitting; used for
Python `split(sep, 1)`, which keeps the remainder joined). -/
def joinWithChar (sep : Char) : List (List Char) → List Char
  | [] => []
  | [g] => g
  | g :: gs => g ++ sep :: joinWithChar sep gs

/-- Python `s.split(sep, 1)`: the part before the first separator and the
joined remainder. -/
def splitFirst (sep : Char) (s : String) : String × String :=
  match splitOnCharL sep s.data with
  | [] => (s, "")
  | k :: rest => (String.mk k, String.mk (joinWithChar sep rest))

/-- Python `s.strip()`: drop whitespace from both ends. -/
def pyStrip (s : String) : String :=
  String.mk
    ((((s.data.dropWhile Char.isWhitespace).reverse).dropWhile
        Char.isWhitespace).reverse)

/-- Python `sep in s` for a one-character needle. -/
def strContainsChar (s : String) (c : Char) : Bool :=
  s.data.contains c

/-- Python `s.replace(a, b)` for one-character patterns. -/
def replaceChar (a b : Char) (s : String) : String :=
  String.mk (s.data.map fun c => if c = a then b else c)

/-- Python `str.title()` after `replace("_", " ")`: a letter after a
non-letter is uppercased, a letter after a letter is lowercased. -/
def pyTitleAux : Bool → List Char → List Char
  | _, [] => []
  | prevAlpha, c :: cs =>
    if c.isAlpha then
      (if prevAlpha then c.toLower else c.toUpper) :: pyTitleAux true cs
    else
      c :: pyTitleAux false cs

def pyTitle (s : String) : String :=
  String.mk (pyTitleAux false s.data)

/-- Token parsing of the formatter loop (app.py lines 144-152): strip the
token, split at the first `:` into key and custom label, strip both. -/
def tokenParts (t0 : String) : String × Option String :=
  let t := pyStrip t0
  if strContainsChar t ':' then
    let p := splitFirst ':' t
    (pyStrip p.1, some (pyStrip p.2))
  else
    (t, none)

/-- One entry of `ordered_data`: the copied field-map dict with its added
`label` (headers keep their `"type": "header"` marker, here `isHeader`). -/
structure OrderedField where
  label : String
  value : FVal
  field : Option String
  isHeader : Bool
deriving DecidableEq

/-- Label and entry construction for one recognized token (app.py lines
155-166): a non-empty custom label wins; otherwise headers are labeled by
their own value and plain fields by the title-cased key. -/
def mkEntry (key : String) (customLabel : Option String) : FieldInfo → OrderedField
  | .header v =>
    { label :=
        match customLabel with
        | some l => if l ≠ "" then l else v
        | none => v
      value := .str v, field := none, isHeader := true }
  | .field v p =>
    { label :=
        match customLabel with
        | some l => if l ≠ "" then l else pyTitle (replaceChar '_' ' ' key)
        | none => pyTitle (replaceChar '_' ' ' key)
      value := v, field := some p, isHeader := false }

/-- Per-token resolution: parse the token, look it up, build its entry;
unrecognized keys give nothing. -/
def resolveToken (st : StatsResult) (useCommas : Bool) (tok : String) :
    Option OrderedField :=
  let (key, customLabel) := tokenParts tok
  match fieldMap st useCommas key with
  | none => none
  | some fi => some (mkEntry key customLabel fi)

/-- The formatter loop over the comma-split tokens, appending each resolved
entry to `ordered_data`. -/
def processTokens (st : StatsResult) (useCommas : Bool) (toks : List String) :
    List OrderedField :=
  toks.foldl
    (fun acc t =>
      match resolveToken st useCommas t with
      | some e => acc ++ [e]
      | none => acc)
    []

/-- The formatter's return payload. -/
structure FormattedStats where
  ordered_fields : List OrderedField
  error : Option String
deriving DecidableEq

/-- `format_ordered_stats` (app.py lines 62-168). -/
def formatOrderedStats (st : StatsResult) (useCommas : Bool) (fieldsParam : String) :
    FormattedStats :=
  { ordered_fields := processTokens st useCommas (pySplitChar ',' fieldsParam)
    error := st.error }

/-! ## Theorems -/

/-- A successful Sonarr loop iteration leaves the four counters exactly as
`sonarrCount` set them. -/
theorem sonarrStep_ok_counts {acc acc' : SonarrAcc} {r : PyDict}
    (h : sonarrStep acc r = .ok acc') :
    acc'.ended = (sonarrCount acc r).ended ∧
    acc'.continuing = (sonarrCount acc r).continuing ∧
    acc'.monitored = (sonarrCount acc r).monitored ∧
    acc'.unmonitored = (sonarrCount acc r).unmonitored := by
  unfold sonarrStep at h
  split at h
  · cases h
  · split at h <;> cases h <;> simp

/-- The `if`/`elif` counting chain, field by field. -/
theorem sonarrCount_fields (acc : SonarrAcc) (r : PyDict) :
    (sonarrCount acc r).ended = acc.ended + (if sonarrEnded r then 1 else 0) ∧
    (sonarrCount acc r).continuing
      = acc.continuing + (if sonarrContinuing r then 1 else 0) ∧
    (sonarrCount acc r).monitored = acc.monitored + (if isMonitored r then 1 else 0) ∧
    (sonarrCount acc r).unmonitored
      = acc.unmonitored + (if isMonitored r then 0 else 1) := by
  by_cases he : sonarrEnded r
  · have hc : sonarrContinuing r = false := by simp [sonarrContinuing, he]
    by_cases hm : isMonitored r <;> simp [sonarrCount, he, hc, hm]
  · by_cases hc : sonarrContinuing r <;> by_cases hm : isMonitored r <;>
      simp [sonarrCount, he, hc, hm]

/-- Rearrangement of one counting step against a `countP` cast to `Int`. -/
theorem int_count_step (a : Int) (b : Bool) (n : Nat) :
    a + (if b then 1 else 0) + (n : Int) = a + ((n + if b then 1 else 0 : Nat) : Int) := by
  cases b <;> simp <;> ring

/-- Counter bookkeeping of the whole Sonarr fold, relative to any starting
accumulator. -/
theorem sonarrFold_counts {rs : List PyDict} {acc acc' : SonarrAcc}
    (h : List.foldlM sonarrStep acc rs = .ok acc') :
    acc'.ended = acc.ended + (rs.countP sonarrEnded : Int) ∧
    acc'.continuing = acc.continuing + (rs.countP sonarrContinuing : Int) := by
  induction rs generalizing acc with
  | nil =>
    simp only [List.foldlM_nil] at h
    cases h
    simp
  | cons r rs ih =>
    rw [List.foldlM_cons] at h
    cases hstep : sonarrStep acc r with
    | error e => rw [hstep] at h; exact Except.noConfusion h
    | ok acc1 =>
      rw [hstep] at h
      have hrec := ih h
      have hcnt := sonarrStep_ok_counts hstep
      have hflds := sonarrCount_fields acc r
      constructor
      · rw [hrec.1, hcnt.1, hflds.1, List.countP_cons]
        exact int_count_step acc.ended (sonarrEnded r) (rs.countP sonarrEnded)
      · rw [hrec.2, hcnt.2.1, hflds.2.1, List.countP_cons]
        exact int_count_step acc.continuing (sonarrContinuing r)
          (rs.countP sonarrContinuing)

/-- C1.  The claim says the Item Normalizer never fails on any raw record,
with no raising branch reachable.  The code contradicts this: on a Provider A
record missing `seasonNumber`/`episodeNumber` (here the empty record) the
f-string `f"S{item.get('seasonNumber'):02d}..."` formats `None` with `:02d`
and raises `TypeError`, which the embedding evaluates to an error. -/
theorem sonarr_normalizer_raises_on_missing_numbers :
    ArrApi.normalizeSonarrItem [] = .error () := rfl

/-- C2.  The claim says the agenda sort totally orders every mixed collection,
treating an absent `release_datetime` as a minimal/null key, and never fails.
The code contradicts this: sorting two normalized Sonarr items, one without
`airDateUtc` (key `None`) and one with a date string, makes Python compare
`str` with `None` and raise `TypeError`, aborting the whole endpoint.  Both
the sort step and the full agenda pipeline evaluate to an error here. -/
theorem agenda_sort_raises_on_absent_datetime :
    ArrApi.sortItems
        [{ release_datetime := .null, title := .str "A", type := "show",
           has_file := .bool false, details := "S01E02" },
         { release_datetime := .str "2026-01-05T00:00:00Z", title := .str "B",
           type := "show", has_file := .bool false, details := "S03E04" }]
      = .error () ∧
    ArrApi.getAgendaCore "2026-01-01"
        [[("seasonNumber", .num 1), ("episodeNumber", .num 2)],
         [("seasonNumber", .num 3), ("episodeNumber", .num 4),
          ("airDateUtc", .str "2026-01-05T00:00:00Z")]] []
      = .error () :=
  ⟨rfl, rfl⟩

/-- A successful insertion is a permutation of consing the new item. -/
theorem insertByKey_perm {x : NormItem} {l l' : List NormItem}
    (h : insertByKey x l = .ok l') : l'.Perm (x :: l) := by
  induction l generalizing l' with
  | nil =>
    unfold insertByKey at h
    cases h
    exact List.Perm.refl _
  | cons y ys ih =>
    unfold insertByKey at h
    split at h
    · cases h
    · cases h
      exact List.Perm.refl _
    · split at h
      · cases h
      · rename_i zs hzs
        cases h
        exact ((ih hzs).cons y).trans (List.Perm.swap x y ys)

/-- A successful sort permutes the accumulated prefix and the remaining
input. -/
theorem sortByKey_perm {items : List NormItem} {l sorted : List NormItem}
    (h : sortByKey l items = .ok sorted) : sorted.Perm (l ++ items) := by
  induction items generalizing l with
  | nil =>
    unfold sortByKey at h
    cases h
    simp
  | cons x xs ih =>
    unfold sortByKey at h
    split at h
    · cases h
    · rename_i l2 hl2
      exact (ih h).trans
        (((insertByKey_perm hl2).append_right xs).trans List.perm_middle.symm)

/-- The modelled `list.sort` returns a permutation of its input whenever it
succeeds. -/
theorem sortItems_perm {items sorted : List NormItem}
    (h : sortItems items = .ok sorted) : sorted.Perm items := by
  have := sortByKey_perm h
  simpa using this

/-- Inserting into a bucket list adds exactly the one item to the flattened
contents. -/
theorem insertGroup_flatten_perm (d : String) (it : NormItem)
    (acc : List (String × List NormItem)) :
    (entryItems (insertGroup d it acc)).Perm (entryItems acc ++ [it]) := by
  induction acc with
  | nil => simp [insertGroup, entryItems]
  | cons p rest ih =>
    obtain ⟨k, xs⟩ := p
    unfold insertGroup
    by_cases hk : k = d
    · simp only [hk, if_true, ite_true, entryItems, List.map_cons, List.flatten_cons]
      rw [List.append_assoc]
      exact (List.perm_append_comm.append_left xs).trans
        (by rw [List.append_assoc])
    · simp only [hk, if_false, ite_false, entryItems, List.map_cons, List.flatten_cons]
      have := ih.append_left xs
      simp only [entryItems] at this
      exact this.trans (by rw [List.append_assoc])

/-- The grouping loop keeps exactly the truthy-keyed items: the flattened
groups are a permutation of the starting buckets' contents plus the truthy
part of the remaining input. -/
theorem groupAgenda_flatten_perm {its : List NormItem}
    {acc gs : List (String × List NormItem)}
    (h : groupAgenda acc its = .ok gs) :
    (entryItems gs).Perm
      (entryItems acc ++ its.filter (fun n => pyTruthy n.release_datetime)) := by
  induction its generalizing acc with
  | nil =>
    unfold groupAgenda at h
    cases h
    simp
  | cons it its ih =>
    unfold groupAgenda at h
    by_cases ht : pyTruthy it.release_datetime
    · rw [if_pos ht] at h
      split at h
      · cases h
      · rename_i d hd
        refine (ih h).trans ?_
        have hf : List.filter (fun n => pyTruthy n.release_datetime) (it :: its)
            = it :: List.filter (fun n => pyTruthy n.release_datetime) its := by
          simp [List.filter_cons, ht]
        rw [hf]
        refine ((insertGroup_flatten_perm d it acc).append_right _).trans ?_
        rw [List.append_assoc]
        exact List.Perm.refl _
    · rw [if_neg ht] at h
      have hf : List.filter (fun n => pyTruthy n.release_datetime) (it :: its)
          = List.filter (fun n => pyTruthy n.release_datetime) its := by
        simp [List.filter_cons, ht]
      rw [hf]
      exact ih h

/-- Date-key invariant of a bucket list: every item in a bucket has that
bucket's date as the first ten characters of its `release_datetime`. -/
def GroupsDated (gs : List (String × List NormItem)) : Prop :=
  ∀ p ∈ gs, ∀ it ∈ p.2, sliceTen it.release_datetime = .ok p.1

theorem insertGroup_dated {acc : List (String × List NormItem)} {d : String}
    {it : NormItem} (hacc : GroupsDated acc)
    (hit : sliceTen it.release_datetime = .ok d) :
    GroupsDated (insertGroup d it acc) := by
  induction acc with
  | nil =>
    intro p hp x hx
    simp only [insertGroup, List.mem_singleton] at hp
    subst hp
    simp only [List.mem_singleton] at hx
    subst hx
    exact hit
  | cons q rest ih =>
    obtain ⟨k, xs⟩ := q
    intro p hp x hx
    unfold insertGroup at hp
    by_cases hk : k = d
    · rw [if_pos hk] at hp
      rcases List.mem_cons.mp hp with hp | hp
      · subst hp
        rcases List.mem_append.mp hx with hx | hx
        · exact hacc (k, xs) (List.mem_cons_self _ _) x hx
        · simp only [List.mem_singleton] at hx
          subst hx
          show sliceTen _ = .ok k
          rw [hk]
          exact hit
      · exact hacc p (List.mem_cons_of_mem _ hp) x hx
    · rw [if_neg hk] at hp
      rcases List.mem_cons.mp hp with hp | hp
      · subst hp
        exact hacc (k, xs) (List.mem_cons_self _ _) x hx
      · exact ih (fun q hq => hacc q (List.mem_cons_of_mem _ hq)) p hp x hx

theorem groupAgenda_dated {its : List NormItem}
    {acc gs : List (String × List NormItem)}
    (h : groupAgenda acc its = .ok gs) (hacc : GroupsDated acc) : GroupsDated gs := by
  induction its generalizing acc with
  | nil =>
    unfold groupAgenda at h
    cases h
    exact hacc
  | cons it its ih =>
    unfold groupAgenda at h
    by_cases ht : pyTruthy it.release_datetime
    · rw [if_pos ht] at h
      split at h
      · cases h
      · rename_i d hd
        exact ih h (insertGroup_dated hacc hd)
    · rw [if_neg ht] at h
      exact ih h hacc

/-- C4.  Provider B release preference: a digitalRelease present as a
(non-empty, per the data model) datetime string wins and yields details
"Digital Release"; with digitalRelease absent the item carries `inCinemas`
and "In Cinemas"; with both absent `release_datetime` is `None`. -/
theorem radarr_release_preference (item : ArrApi.PyDict) :
    (∀ s : String, ArrApi.pyLookup item "digitalRelease" = some (.str s) → s ≠ "" →
        (ArrApi.normalizeRadarrItem item).release_datetime = .str s ∧
        (ArrApi.normalizeRadarrItem item).details = "Digital Release") ∧
    (ArrApi.pyLookup item "digitalRelease" = none →
        (ArrApi.normalizeRadarrItem item).release_datetime = ArrApi.pyGet item "inCinemas" ∧
        (ArrApi.normalizeRadarrItem item).details = "In Cinemas") ∧
    (ArrApi.pyLookup item "digitalRelease" = none →
        ArrApi.pyLookup item "inCinemas" = none →
        (ArrApi.normalizeRadarrItem item).release_datetime = .null) := by
  refine ⟨fun s hs hne => ?_, fun h => ?_, fun h h' => ?_⟩
  · simp [ArrApi.normalizeRadarrItem, ArrApi.pyGet, ArrApi.pyGetD, hs,
      ArrApi.pyTruthy, hne]
  · simp [ArrApi.normalizeRadarrItem, ArrApi.pyGet, ArrApi.pyGetD, h,
      ArrApi.pyTruthy]
  · simp [ArrApi.normalizeRadarrItem, ArrApi.pyGet, ArrApi.pyGetD, h, h',
      ArrApi.pyTruthy]

/-- Witness for C4: with both dates present (non-empty strings), the digital
release wins; with digitalRelease absent the cinema date is used; with both
absent the release datetime is `None`. -/
theorem radarr_release_preference_witness :
    ((ArrApi.normalizeRadarrItem
        [("digitalRelease", .str "2025-01-01"), ("inCinemas", .str "2024-01-01")]
      ).release_datetime = .str "2025-01-01" ∧
     (ArrApi.normalizeRadarrItem
        [("digitalRelease", .str "2025-01-01"), ("inCinemas", .str "2024-01-01")]
      ).details = "Digital Release") ∧
    ((ArrApi.normalizeRadarrItem [("inCinemas", .str "2024-01-01")]
      ).release_datetime = .str "2024-01-01" ∧
     (ArrApi.normalizeRadarrItem [("inCinemas", .str "2024-01-01")]
      ).details = "In Cinemas") ∧
    (ArrApi.normalizeRadarrItem [("title", .str "M")]).release_datetime = .null :=
  ⟨(radarr_release_preference _).1 "2025-01-01" rfl (by decide),
   ⟨((radarr_release_preference [("inCinemas", .str "2024-01-01")]).2.1 rfl).1,
    ((radarr_release_preference [("inCinemas", .str "2024-01-01")]).2.1 rfl).2⟩,
   (radarr_release_preference [("title", .str "M")]).2.2 rfl rfl⟩

/-- C3 counterexample.  A Provider A record without `airDateUtc` is
normalized unconditionally (into the one-element filtered+normalized input
set) but the grouping loop silently drops it, so the returned agenda is empty
and the union of the entries' items is not that input set. -/
theorem agenda_union_counterexample :
    getAgendaCore "2026-01-01"
        [[("seasonNumber", Json.num 1), ("episodeNumber", Json.num 2)]] [] = .ok [] ∧
    [[("seasonNumber", Json.num 1), ("episodeNumber", Json.num 2)]].mapM
        normalizeSonarrItem
      = .ok [⟨Json.null, Json.str "Unknown Show", "show", Json.bool false, "S01E02"⟩] ∧
    radarrAgendaItems "2026-01-01" [] = .ok [] ∧
    ¬ (entryItems []).Perm
        ([⟨Json.null, Json.str "Unknown Show", "show", Json.bool false, "S01E02"⟩]
          ++ []) := by
  refine ⟨by rfl, by rfl, by rfl, fun hperm => ?_⟩
  simpa [entryItems] using hperm

/-- C3 (amended).  When the pipeline succeeds, the union (with multiplicity)
of all items across the returned Agenda Entries is exactly the items of the
filtered+normalized input whose `release_datetime` is truthy — Provider A
items with an absent/empty `release_datetime` are silently dropped by the
grouping loop — and every entry's date equals the first 10 characters of each
of its items' `release_datetime`. -/
theorem agenda_grouping_partition (startDate : String) (sonarr radarr : List PyDict)
    (sItems rItems : List NormItem) (groups : List (String × List NormItem))
    (hs : sonarr.mapM normalizeSonarrItem = .ok sItems)
    (hr : radarrAgendaItems startDate radarr = .ok rItems)
    (hg : getAgendaCore startDate sonarr radarr = .ok groups) :
    (entryItems groups).Perm
      ((sItems ++ rItems).filter (fun n => pyTruthy n.release_datetime)) ∧
    GroupsDated groups := by
  unfold getAgendaCore at hg
  rw [hs, hr] at hg
  simp only [] at hg
  split at hg
  · cases hg
  · rename_i sorted hsort
    refine ⟨?_, groupAgenda_dated hg (fun p hp => absurd hp (List.not_mem_nil p))⟩
    have h1 := groupAgenda_flatten_perm hg
    have h2 : entryItems ([] : List (String × List NormItem)) = [] := rfl
    rw [h2, List.nil_append] at h1
    exact h1.trans ((sortItems_perm hsort).filter _)

/-- Witness for C3 (amended): a one-show, one-movie pipeline run; the grouped
union is exactly the two truthy-dated items and both entry dates match. -/
theorem agenda_grouping_partition_witness :
    (entryItems
        [("2026-01-05",
          [⟨Json.str "2026-01-05T00:00:00Z", Json.str "Unknown Show", "show",
            Json.bool false, "S01E02"⟩]),
         ("2026-02-01",
          [⟨Json.str "2026-02-01T00:00:00Z", Json.str "M", "movie",
            Json.bool false, "In Cinemas"⟩])]).Perm
      ((([⟨Json.str "2026-01-05T00:00:00Z", Json.str "Unknown Show", "show",
           Json.bool false, "S01E02"⟩]
         ++ [⟨Json.str "2026-02-01T00:00:00Z", Json.str "M", "movie",
             Json.bool false, "In Cinemas"⟩] : List NormItem)).filter
        (fun n => pyTruthy n.release_datetime)) ∧
    GroupsDated
      [("2026-01-05",
        [⟨Json.str "2026-01-05T00:00:00Z", Json.str "Unknown Show", "show",
          Json.bool false, "S01E02"⟩]),
       ("2026-02-01",
        [⟨Json.str "2026-02-01T00:00:00Z", Json.str "M", "movie",
          Json.bool false, "In Cinemas"⟩])] :=
  agenda_grouping_partition "2026-01-01"
    [[("seasonNumber", Json.num 1), ("episodeNumber", Json.num 2),
      ("airDateUtc", Json.str "2026-01-05T00:00:00Z")]]
    [[("title", Json.str "M"), ("inCinemas", Json.str "2026-02-01T00:00:00Z")]]
    _ _ _ (by rfl) (by rfl) (by rfl)

/-- C5.  In the Sonarr stats reduction, `ended` counts exactly the records
whose `ended` flag is truthy or whose `status` equals "ended", `continuing`
counts exactly the records that fail that condition and have `status`
"continuing", and no record satisfies both counted conditions — a record with
the ended flag set and status "continuing" is counted only as ended. -/
theorem sonarr_status_partition (d : Nat) (rs : List PyDict) (st : SonarrStats)
    (h : calculateSonarrStats d rs = .ok st) :
    st.ended = (rs.countP sonarrEnded : Int) ∧
    st.continuing = (rs.countP sonarrContinuing : Int) ∧
    (∀ r : PyDict, sonarrEnded r
      = (pyTruthy (pyGetD r "ended" (.bool false))
          || pyEqStr (pyGet r "status") "ended")) ∧
    (∀ r : PyDict, sonarrContinuing r
      = (!sonarrEnded r && pyEqStr (pyGet r "status") "continuing")) ∧
    (∀ r : PyDict, (sonarrEnded r && sonarrContinuing r) = false) := by
  unfold calculateSonarrStats at h
  split at h
  · cases h
  · cases h
    have hf := sonarrFold_counts (by assumption)
    refine ⟨?_, ?_, fun r => rfl, fun r => rfl, fun r => ?_⟩
    · simpa [sonarrAcc0] using hf.1
    · simpa [sonarrAcc0] using hf.2
    · by_cases he : sonarrEnded r <;> simp [sonarrContinuing, he]

/-- Witness for C5: a record with `ended: true` and `status: "continuing"` is
counted only in `ended`. -/
theorem sonarr_status_partition_witness :
    ((⟨1, 1, 0, 0, 1, 0, 0, "0.0 TB"⟩ : SonarrStats).ended
        = ([[("ended", Json.bool true), ("status", Json.str "continuing")]].countP
            sonarrEnded : Int)) ∧
    ((⟨1, 1, 0, 0, 1, 0, 0, "0.0 TB"⟩ : SonarrStats).continuing
        = ([[("ended", Json.bool true), ("status", Json.str "continuing")]].countP
            sonarrContinuing : Int)) :=
  ⟨(sonarr_status_partition 1
      [[("ended", Json.bool true), ("status", Json.str "continuing")]] _ rfl).1,
   (sonarr_status_partition 1
      [[("ended", Json.bool true), ("status", Json.str "continuing")]] _ rfl).2.1⟩

/-- C6 counterexample.  At requested precision 0 the size string for an empty
collection is "0 TB" (Python `f"{0:.0f}"`), not the claimed `"0."` followed by
zero zeros and `" TB"` (which would be "0. TB"). -/
theorem stats_zero_decimals_zero_counterexample :
    (calculateSonarrStats 0 []).map SonarrStats.size = .ok "0 TB" ∧
    (calculateRadarrStats 0 []).map RadarrStats.size = .ok "0 TB" ∧
    "0 TB" ≠ "0." ++ zeros 0 ++ " TB" :=
  ⟨rfl, rfl, by decide⟩

/-- C6 (amended).  For a requested precision of at least one decimal, an empty
record collection yields all-zero counters with size `"0." ++ zeros ++ " TB"`,
and any collection whose summed total bytes is zero or negative gets that same
properly formatted zero size string, for both providers.  (At precision 0 the
calculators render "0 TB", with no decimal point.) -/
theorem stats_zero_properties (d : Nat) (hd : 1 ≤ d) :
    calculateSonarrStats d [] = .ok ⟨0, 0, 0, 0, 0, 0, 0, "0." ++ zeros d ++ " TB"⟩ ∧
    calculateRadarrStats d [] = .ok ⟨0, 0, 0, 0, "0." ++ zeros d ++ " TB"⟩ ∧
    (∀ (rs : List PyDict) (t : Int) (st : SonarrStats), sonarrTotalBytes rs = .ok t →
        t ≤ 0 → calculateSonarrStats d rs = .ok st →
        st.size = "0." ++ zeros d ++ " TB") ∧
    (∀ (ms : List PyDict) (t : Int) (st : RadarrStats), radarrTotalBytes ms = .ok t →
        t ≤ 0 → calculateRadarrStats d ms = .ok st →
        st.size = "0." ++ zeros d ++ " TB") := by
  have hz : zeroFixed d = "0." ++ zeros d := by
    unfold zeroFixed
    rw [if_neg (by omega)]
  refine ⟨?_, ?_, ?_, ?_⟩
  · have h0 : calculateSonarrStats d []
        = .ok ⟨0, 0, 0, 0, 0, 0, 0, formatSizeTB 0 d⟩ := rfl
    rw [h0]
    unfold formatSizeTB
    rw [if_neg (by omega : ¬ (0 : Int) > 0), hz, String.append_assoc]
  · have h0 : calculateRadarrStats d [] = .ok ⟨0, 0, 0, 0, formatSizeTB 0 d⟩ := rfl
    rw [h0]
    unfold formatSizeTB
    rw [if_neg (by omega : ¬ (0 : Int) > 0), hz, String.append_assoc]
  · intro rs t st ht hle h
    unfold calculateSonarrStats at h
    unfold sonarrTotalBytes at ht
    split at h
    · cases h
    · rename_i acc heq
      rw [heq] at ht
      cases h
      simp only [Except.map] at ht
      cases ht
      show formatSizeTB acc.size d = _
      unfold formatSizeTB
      rw [if_neg (by omega : ¬ acc.size > 0), hz, String.append_assoc]
  · intro ms t st ht hle h
    unfold calculateRadarrStats at h
    unfold radarrTotalBytes at ht
    split at h
    · cases h
    · rename_i acc heq
      rw [heq] at ht
      cases h
      simp only [Except.map] at ht
      cases ht
      show formatSizeTB acc.size d = _
      unfold formatSizeTB
      rw [if_neg (by omega : ¬ acc.size > 0), hz, String.append_assoc]

/-- Witness for C6: at the default one decimal, empty collections yield the
zero stats, and a Sonarr collection whose only record carries a negative
`sizeOnDisk` still formats as "0.0 TB". -/
theorem stats_zero_properties_witness :
    calculateSonarrStats 1 [] = .ok ⟨0, 0, 0, 0, 0, 0, 0, "0.0 TB"⟩ ∧
    calculateRadarrStats 1 [] = .ok ⟨0, 0, 0, 0, "0.0 TB"⟩ ∧
    (⟨1, 0, 0, 0, 1, 0, 0, "0.0 TB"⟩ : SonarrStats).size = "0.0 TB" ∧
    (⟨1, 0, 0, 1, "0.0 TB"⟩ : RadarrStats).size = "0.0 TB" := by
  have w := stats_zero_properties 1 (by norm_num)
  have e : "0." ++ zeros 1 ++ " TB" = "0.0 TB" := rfl
  refine ⟨?_, ?_, ?_, ?_⟩
  · exact w.1.trans (by rfl)
  · exact w.2.1.trans (by rfl)
  · exact (w.2.2.1 [[("statistics", .obj [("sizeOnDisk", .num (-5))])]] (-5)
      ⟨1, 0, 0, 0, 1, 0, 0, "0.0 TB"⟩ (by rfl) (by norm_num) (by rfl)).trans e
  · exact (w.2.2.2 [[("sizeOnDisk", .num (-7))]] (-7)
      ⟨1, 0, 0, 1, "0.0 TB"⟩ (by rfl) (by norm_num) (by rfl)).trans e

/-- C8.  Fetch-failure policy of the stats endpoint: when both provider
fetches fail, both sections are zero-filled at the requested precision and the
two messages are joined with " | "; when exactly one fails, only that section
is zero-filled, the other carries its calculated stats, and the error is
exactly that provider's message. -/
theorem stats_fetch_failures (d : Nat) (es er : String) :
    getStatsCore d (.error es) (.error er)
      = .ok { sonarr := zeroSonarrStats d, radarr := zeroRadarrStats d,
              error := some (("Sonarr error: " ++ es) ++ (" | Radarr error: " ++ er)) } ∧
    (∀ (ms : List PyDict) (rst : RadarrStats), calculateRadarrStats d ms = .ok rst →
        getStatsCore d (.error es) (.ok ms)
          = .ok { sonarr := zeroSonarrStats d, radarr := rst,
                  error := some ("Sonarr error: " ++ es) }) ∧
    (∀ (rs : List PyDict) (sst : SonarrStats), calculateSonarrStats d rs = .ok sst →
        getStatsCore d (.ok rs) (.error er)
          = .ok { sonarr := sst, radarr := zeroRadarrStats d,
                  error := some ("Radarr error: " ++ er) }) := by
  refine ⟨?_, fun ms rst h => ?_, fun rs sst h => ?_⟩
  · rfl
  · simp only [getStatsCore, h]
    rfl
  · simp only [getStatsCore, h]
    rfl

/-- Witness for C8: both fetches failing, and each single-failure case with an
empty successful side. -/
theorem stats_fetch_failures_witness :
    getStatsCore 1 (.error "boom") (.error "bust")
      = .ok { sonarr := zeroSonarrStats 1, radarr := zeroRadarrStats 1,
              error := some (("Sonarr error: " ++ "boom")
                ++ (" | Radarr error: " ++ "bust")) } ∧
    getStatsCore 1 (.error "boom") (.ok [])
      = .ok { sonarr := zeroSonarrStats 1, radarr := ⟨0, 0, 0, 0, "0.0 TB"⟩,
              error := some ("Sonarr error: " ++ "boom") } ∧
    getStatsCore 1 (.ok []) (.error "bust")
      = .ok { sonarr := ⟨0, 0, 0, 0, 0, 0, 0, "0.0 TB"⟩, radarr := zeroRadarrStats 1,
              error := some ("Radarr error: " ++ "bust") } :=
  ⟨(stats_fetch_failures 1 "boom" "bust").1,
   (stats_fetch_failures 1 "boom" "bust").2.1 [] ⟨0, 0, 0, 0, "0.0 TB"⟩ rfl,
   (stats_fetch_failures 1 "boom" "bust").2.2 [] ⟨0, 0, 0, 0, 0, 0, 0, "0.0 TB"⟩ rfl⟩

/-- The formatter loop appends exactly the resolved entries, in token order:
it is the `filterMap` of per-token resolution. -/
theorem processTokens_eq_filterMap (st : StatsResult) (c : Bool) (ts : List String) :
    processTokens st c ts = ts.filterMap (resolveToken st c) := by
  unfold processTokens
  suffices h : ∀ acc : List OrderedField,
      ts.foldl
          (fun acc t =>
            match resolveToken st c t with
            | some e => acc ++ [e]
            | none => acc)
          acc
        = acc ++ ts.filterMap (resolveToken st c) by
    simpa using h []
  induction ts with
  | nil => simp
  | cons t ts ih =>
    intro acc
    simp only [List.foldl_cons, List.filterMap_cons]
    cases hr : resolveToken st c t with
    | none => simp [ih acc]
    | some e => rw [ih (acc ++ [e]), List.append_assoc, List.singleton_append]

/-- C7.  The Field Formatter on spec "sonarr_header,sonarr_series:Shows" with
`sonarr.series = 12` yields exactly the auto-labeled "TV" header entry
followed by the custom-labeled "Shows" entry with value 12 and field
"sonarr.series", carrying through the error; and in general the output
entries are the resolved tokens in the exact order the tokens appeared in the
specification string. -/
theorem ordered_fields_example_and_order :
    (∀ st : StatsResult, st.sonarr.series = 12 →
        formatOrderedStats st false "sonarr_header,sonarr_series:Shows"
          = { ordered_fields :=
                [⟨"TV", .str "TV", none, true⟩,
                 ⟨"Shows", .num 12, some "sonarr.series", false⟩],
              error := st.error }) ∧
    (∀ (st : StatsResult) (c : Bool) (s : String),
        (formatOrderedStats st c s).ordered_fields
          = (pySplitChar ',' s).filterMap (resolveToken st c)) := by
  constructor
  · intro st h
    have e : formatOrderedStats st false "sonarr_header,sonarr_series:Shows"
        = { ordered_fields :=
              [⟨"TV", .str "TV", none, true⟩,
               ⟨"Shows", .num st.sonarr.series, some "sonarr.series", false⟩],
            error := st.error } := by rfl
    rw [e, h]
  · intro st c s
    exact processTokens_eq_filterMap st c (pySplitChar ',' s)

/-- Witness for C7: a concrete Stats Result with `sonarr.series = 12`. -/
theorem ordered_fields_example_witness :
    formatOrderedStats
        ⟨⟨12, 3, 4, 5, 6, 7, 8, "1.0 TB"⟩, ⟨9, 1, 2, 3, "2.0 TB"⟩, none⟩
        false "sonarr_header,sonarr_series:Shows"
      = { ordered_fields :=
            [⟨"TV", .str "TV", none, true⟩,
             ⟨"Shows", .num 12, some "sonarr.series", false⟩],
          error := none } :=
  ordered_fields_example_and_order.1
    ⟨⟨12, 3, 4, 5, 6, 7, 8, "1.0 TB"⟩, ⟨9, 1, 2, 3, "2.0 TB"⟩, none⟩ rfl

/-- C9.  A token whose (stripped) field key is not in the fixed field table
contributes no output entry and no error: the loop's result over any token
list containing it equals the result with that token removed, with the
surrounding tokens processed normally. -/
theorem unrecognized_tokens_skipped (st : StatsResult) (c : Bool)
    (ts us : List String) (u : String)
    (h : fieldMap st c (tokenParts u).1 = none) :
    processTokens st c (ts ++ u :: us) = processTokens st c (ts ++ us) := by
  have hu : resolveToken st c u = none := by
    unfold resolveToken
    rcases htp : tokenParts u with ⟨k, cl⟩
    rw [htp] at h
    simp only at h
    show (match fieldMap st c k with
          | none => none
          | some fi => some (mkEntry k cl fi)) = none
    rw [h]
  rw [processTokens_eq_filterMap, processTokens_eq_filterMap,
    List.filterMap_append, List.filterMap_append, List.filterMap_cons, hu]

/-- Witness for C9: an unrecognized token "bogus" between two recognized
tokens is skipped. -/
theorem unrecognized_tokens_skipped_witness :
    processTokens ⟨⟨12, 3, 4, 5, 6, 7, 8, "1.0 TB"⟩, ⟨9, 1, 2, 3, "2.0 TB"⟩, none⟩
        false (["sonarr_series"] ++ "bogus" :: ["radarr_movies"])
      = processTokens ⟨⟨12, 3, 4, 5, 6, 7, 8, "1.0 TB"⟩, ⟨9, 1, 2, 3, "2.0 TB"⟩, none⟩
        false (["sonarr_series"] ++ ["radarr_movies"]) :=
  unrecognized_tokens_skipped
    ⟨⟨12, 3, 4, 5, 6, 7, 8, "1.0 TB"⟩, ⟨9, 1, 2, 3, "2.0 TB"⟩, none⟩
    false ["sonarr_series"] ["radarr_movies"] "bogus" (by rfl)

/-- C10.  Presence of `digitalRelease` is decided by Python truthiness, not
key existence: a record whose `digitalRelease` key exists with a falsy value
(empty string, `None`, `0`, ...) and whose `inCinemas` is present normalizes
to the cinema date with details "In Cinemas". -/
theorem radarr_digital_truthiness (item : ArrApi.PyDict) (v c : ArrApi.Json)
    (hv : ArrApi.pyLookup item "digitalRelease" = some v)
    (ht : ArrApi.pyTruthy v = false)
    (hc : ArrApi.pyLookup item "inCinemas" = some c) :
    (ArrApi.normalizeRadarrItem item).release_datetime = c ∧
    (ArrApi.normalizeRadarrItem item).details = "In Cinemas" := by
  simp [ArrApi.normalizeRadarrItem, ArrApi.pyGet, ArrApi.pyGetD, hv, hc, ht]

/-- Witness for C10: `digitalRelease` present but empty, `inCinemas` present:
the cinema date is chosen. -/
theorem radarr_digital_truthiness_witness :
    (ArrApi.normalizeRadarrItem
        [("digitalRelease", .str ""), ("inCinemas", .str "2024-05-05")]
      ).release_datetime = .str "2024-05-05" ∧
    (ArrApi.normalizeRadarrItem
        [("digitalRelease", .str ""), ("inCinemas", .str "2024-05-05")]
      ).details = "In Cinemas" :=
  radarr_digital_truthiness _ (.str "") (.str "2024-05-05") rfl rfl rfl

end ArrApi
